import Mathlib

/-!
Verification development for the hid-json decoder (src/main.rs).

The core under verification is the item enrichment and projection pipeline
of `hid_decode`: per-item classification (`JsonItemName::from`), the
collection-kind lookup (`JsonCollection::lookup`), the usage-page and usage
label lookups (`lookup_usage_page`, `lookup_usage`), the threaded
`last_usage_page` state, and the document shaping / layout selection.

External collaborators (the hidreport tokenizer and the hut usage-table
dictionaries) are modelled at their interface, as the spec prescribes.
Rust panics (`unwrap`, `todo!`) are modelled with `Except`.
-/

/-- Sub-kind payload of a Main Collection item, mirroring the tokenizer
interface (hidreport `CollectionItem`): the grammar defines Physical,
Application, Logical, Report, NamedArray, UsageSwitch and UsageModifier,
and leaves reserved and vendor-defined ranges. -/
inductive CollectionItem
  | Physical
  | Application
  | Logical
  | Report
  | NamedArray
  | UsageSwitch
  | UsageModifier
  | ReservedValue (v : Nat)
  | VendorDefined (v : Nat)
deriving DecidableEq, Repr

/-- Main item sub-kinds, mirroring the five variants the source matches on. -/
inductive MainItem
  | Input (v : Nat)
  | Output (v : Nat)
  | Feature (v : Nat)
  | Collection (c : CollectionItem)
  | EndCollection
deriving DecidableEq, Repr

/-- Global item sub-kinds, mirroring the thirteen variants the source
matches on. The UsagePage payload is the 16-bit page value decoded by the
tokenizer (modelled as a Nat; every use takes it mod 2^16). -/
inductive GlobalItem
  | UsagePage (usage_page : Nat)
  | LogicalMinimum (v : Int)
  | LogicalMaximum (v : Int)
  | PhysicalMinimum (v : Int)
  | PhysicalMaximum (v : Int)
  | UnitExponent (v : Int)
  | UnitOf (v : Nat)
  | ReportSize (v : Nat)
  | ReportId (v : Nat)
  | ReportCount (v : Nat)
  | Push
  | Pop
  | Reserved
deriving DecidableEq, Repr

/-- Local item sub-kinds, mirroring the eleven variants the source
matches on. -/
inductive LocalItem
  | Usage (v : Nat)
  | UsageMinimum (v : Nat)
  | UsageMaximum (v : Nat)
  | DesignatorIndex (v : Nat)
  | DesignatorMinimum (v : Nat)
  | DesignatorMaximum (v : Nat)
  | StringIndex (v : Nat)
  | StringMinimum (v : Nat)
  | StringMaximum (v : Nat)
  | Delimiter (v : Nat)
  | Reserved
deriving DecidableEq, Repr

/-- Structural category of a tokenized item (hidreport `ItemType`):
Main, Global, Local, or the reserved-other category. -/
inductive ItemType
  | Main (mi : MainItem)
  | Global (gi : GlobalItem)
  | Local (li : LocalItem)
  | Reserved
deriving DecidableEq, Repr

/-- Data payload of a tokenized item (hidreport `ItemData`): the raw data
bytes of the item, little-endian. -/
structure ItemData where
  bytes : List Nat
deriving DecidableEq, Repr

/-- One tokenized item, as handed over by the external tokenizer: byte
offset, full raw byte slice, optional data payload, and the structural
category with its sub-kind payload. -/
structure TokItem where
  offset : Nat
  bytes : List Nat
  data : Option ItemData
  itemType : ItemType
deriving DecidableEq, Repr

/-- Little-endian value of a byte list (each entry reduced mod 256). -/
def leBytes : List Nat → Nat
  | [] => 0
  | b :: rest => b % 256 + 256 * leBytes rest

/-- Modelled from the spec: the external `u32::try_from(&ItemData)`
conversion of the tokenizer library succeeds exactly on payloads of at
most four data bytes, yielding the little-endian value. -/
def u32TryFrom (d : ItemData) : Option Nat :=
  if d.bytes.length ≤ 4 then some (leBytes d.bytes) else none

/-- Reinterpretation of an unsigned 32-bit value as a signed 32-bit value
(the Rust `as i32` cast). -/
def asI32 (v : Nat) : Int :=
  if v % 4294967296 < 2147483648 then ((v % 4294967296 : Nat) : Int)
  else ((v % 4294967296 : Nat) : Int) - 4294967296

/-- Modelled from the spec: the external usage-table dictionary (the hut
crate), at its interface. `pageName` is `hut::UsagePage::try_from`
followed by display formatting; `usageName` is
`hut::Usage::new_from_page_and_id` followed by display formatting.
Lookups fail (return none) on values outside the dictionary. -/
structure Hut where
  pageName : Nat → Option String
  usageName : Nat → Nat → Option String

/-- A Rust panic site reachable in the per-item pipeline: a failed
`unwrap` of the u32 conversion, or the `todo!()` in
`JsonCollection::lookup`. -/
inductive RtPanic
  | unwrapU32
  | todoCollection
deriving DecidableEq, Repr

/-- Coarse item category of the JSON output (`JsonItemType`). -/
inductive JsonItemType
  | Global
  | Main
  | Local
  | Unknown
deriving DecidableEq, Repr

/-- Semantic item name of the JSON output (`JsonItemName`). -/
inductive JsonItemName
  | Unknown
  | Input
  | Output
  | Feature
  | Collection
  | EndCollection
  | UsagePage
  | LogicalMinimum
  | LogicalMaximum
  | PhysicalMinimum
  | PhysicalMaximum
  | UnitExponent
  | UnitOf
  | ReportSize
  | ReportId
  | ReportCount
  | Push
  | Pop
  | Reserved
  | Usage
  | UsageMinimum
  | UsageMaximum
  | DesignatorIndex
  | DesignatorMinimum
  | DesignatorMaximum
  | StringIndex
  | StringMinimum
  | StringMaximum
  | Delimiter
deriving DecidableEq, Repr

/-- `impl From<&T> for JsonItemName` of the source: the exhaustive mapping
from the structural category and sub-kind of an item to its semantic
name, with Unknown as the fallback for the reserved-other category. -/
def JsonItemName.fromItem (item : TokItem) : JsonItemName :=
  match item.itemType with
  | ItemType.Main mi =>
    match mi with
    | MainItem.Input _ => JsonItemName.Input
    | MainItem.Output _ => JsonItemName.Output
    | MainItem.Feature _ => JsonItemName.Feature
    | MainItem.Collection _ => JsonItemName.Collection
    | MainItem.EndCollection => JsonItemName.EndCollection
  | ItemType.Global gi =>
    match gi with
    | GlobalItem.UsagePage _ => JsonItemName.UsagePage
    | GlobalItem.LogicalMinimum _ => JsonItemName.LogicalMinimum
    | GlobalItem.LogicalMaximum _ => JsonItemName.LogicalMaximum
    | GlobalItem.PhysicalMinimum _ => JsonItemName.PhysicalMinimum
    | GlobalItem.PhysicalMaximum _ => JsonItemName.PhysicalMaximum
    | GlobalItem.UnitExponent _ => JsonItemName.UnitExponent
    | GlobalItem.UnitOf _ => JsonItemName.UnitOf
    | GlobalItem.ReportSize _ => JsonItemName.ReportSize
    | GlobalItem.ReportId _ => JsonItemName.ReportId
    | GlobalItem.ReportCount _ => JsonItemName.ReportCount
    | GlobalItem.Push => JsonItemName.Push
    | GlobalItem.Pop => JsonItemName.Pop
    | GlobalItem.Reserved => JsonItemName.Reserved
  | ItemType.Local li =>
    match li with
    | LocalItem.Usage _ => JsonItemName.Usage
    | LocalItem.UsageMinimum _ => JsonItemName.UsageMinimum
    | LocalItem.UsageMaximum _ => JsonItemName.UsageMaximum
    | LocalItem.DesignatorIndex _ => JsonItemName.DesignatorIndex
    | LocalItem.DesignatorMinimum _ => JsonItemName.DesignatorMinimum
    | LocalItem.DesignatorMaximum _ => JsonItemName.DesignatorMaximum
    | LocalItem.StringIndex _ => JsonItemName.StringIndex
    | LocalItem.StringMinimum _ => JsonItemName.StringMinimum
    | LocalItem.StringMaximum _ => JsonItemName.StringMaximum
    | LocalItem.Delimiter _ => JsonItemName.Delimiter
    | LocalItem.Reserved => JsonItemName.Reserved
  | ItemType.Reserved => JsonItemName.Unknown

/-- Collection kind of the JSON output (`JsonCollection`). -/
inductive JsonCollection
  | Physical
  | Logical
  | Application
deriving DecidableEq, Repr

/-- `JsonCollection::lookup` of the source: resolves the collection-kind
annotation of a Main Collection item; the `todo!()` on a sub-kind outside
Physical/Logical/Application is modelled as an error. -/
def JsonCollection.lookup (item : TokItem) : Except RtPanic (Option JsonCollection) :=
  match item.itemType with
  | ItemType.Main (MainItem.Collection c) =>
    match c with
    | CollectionItem.Physical => Except.ok (some JsonCollection.Physical)
    | CollectionItem.Logical => Except.ok (some JsonCollection.Logical)
    | CollectionItem.Application => Except.ok (some JsonCollection.Application)
    | _ => Except.error RtPanic.todoCollection
  | _ => Except.ok none

/-- `lookup_usage_page` of the source, with the display formatting of the
returned page folded into the dictionary: on a Global UsagePage item
carrying data, unwrap the u32 conversion, truncate to 16 bits and look
the value up; on any other item, or without data, produce no label. -/
def lookup_usage_page (hut : Hut) (item : TokItem) : Except RtPanic (Option String) :=
  match item.itemType with
  | ItemType.Global (GlobalItem.UsagePage _) =>
    match item.data with
    | some d =>
      match u32TryFrom d with
      | some v => Except.ok (hut.pageName (v % 65536))
      | none => Except.error RtPanic.unwrapU32
    | none => Except.ok none
  | _ => Except.ok none

/-- `lookup_usage` of the source, with the display formatting of the
returned usage folded into the dictionary: on a Local Usage item carrying
data, unwrap the u32 conversion, truncate to 16 bits and look the pair
(usage_page, value) up; otherwise produce no label. -/
def lookup_usage (hut : Hut) (item : TokItem) (usage_page : Nat) : Except RtPanic (Option String) :=
  match item.itemType with
  | ItemType.Local (LocalItem.Usage _) =>
    match item.data with
    | some d =>
      match u32TryFrom d with
      | some v => Except.ok (hut.usageName usage_page (v % 65536))
      | none => Except.error RtPanic.unwrapU32
    | none => Except.ok none
  | _ => Except.ok none

/-- One decoded item of the JSON output (`JsonItem`). -/
structure JsonItem where
  offset : Nat
  data : Option (List Nat)
  item_type : JsonItemType
  item_name : JsonItemName
  value : Option Int
  collection : Option JsonCollection
  usage_page : Option String
  usage : Option String
deriving DecidableEq, Repr

/-- The coarse-category projection in the per-item closure of
`hid_decode` (the `match item.item_type()` on lines 254-259). -/
def jsonTypeOf : ItemType → JsonItemType
  | ItemType.Main _ => JsonItemType.Main
  | ItemType.Global _ => JsonItemType.Global
  | ItemType.Local _ => JsonItemType.Local
  | ItemType.Reserved => JsonItemType.Unknown

/-- The `value` computation in the per-item closure of `hid_decode`:
absent when the item has no data, otherwise the unwrapped u32 conversion
reinterpreted as a signed 32-bit integer. -/
def itemValue (item : TokItem) : Except RtPanic (Option Int) :=
  match item.data with
  | none => Except.ok none
  | some d =>
    match u32TryFrom d with
    | some v => Except.ok (some (asI32 v))
    | none => Except.error RtPanic.unwrapU32

/-- The `last_usage_page` state update of `hid_decode` (lines 266-268):
on a Global UsagePage item the state becomes the 16-bit page value of the
item, on every other item it is unchanged. -/
def updateState (last_usage_page : Nat) (item : TokItem) : Nat :=
  match item.itemType with
  | ItemType.Global (GlobalItem.UsagePage p) => p % 65536
  | _ => last_usage_page

/-- The body of the per-item closure of `hid_decode` (lines 251-288), in
source order: coarse category, semantic name, value (can panic), state
update, collection lookup (can panic), usage-page lookup (can panic),
usage lookup against the updated state (can panic), then the record. -/
def processItem (skipData : Bool) (hut : Hut) (last_usage_page : Nat) (item : TokItem) :
    Except RtPanic (Nat × JsonItem) :=
  let item_type := jsonTypeOf item.itemType
  let item_name := JsonItemName.fromItem item
  match itemValue item with
  | Except.error p => Except.error p
  | Except.ok value =>
    let lup := updateState last_usage_page item
    match JsonCollection.lookup item with
    | Except.error p => Except.error p
    | Except.ok collection =>
      match lookup_usage_page hut item with
      | Except.error p => Except.error p
      | Except.ok usage_page =>
        match lookup_usage hut item lup with
        | Except.error p => Except.error p
        | Except.ok usage =>
          Except.ok (lup,
            { offset := item.offset,
              data := if skipData then none else some item.bytes,
              item_type := item_type,
              item_name := item_name,
              value := value,
              collection := collection,
              usage_page := usage_page,
              usage := usage })

/-- The iterator of `hid_decode` (lines 249-289): a left-to-right pass over
the tokenized items threading `last_usage_page`, collecting one JSON item
per tokenized item; a panic anywhere aborts the whole pass. -/
def decodeItems (skipData : Bool) (hut : Hut) : Nat → List TokItem → Except RtPanic (List JsonItem)
  | _, [] => Except.ok []
  | s, item :: rest =>
    match processItem skipData hut s item with
    | Except.error p => Except.error p
    | Except.ok (s1, ji) =>
      match decodeItems skipData hut s1 rest with
      | Except.error p => Except.error p
      | Except.ok out => Except.ok (ji :: out)

/-- The resolver state after processing a list of items, starting from a
given state: the left fold of the per-item state update. -/
def stateAfter (s : Nat) (l : List TokItem) : Nat :=
  List.foldl updateState s l

-- Concrete fixtures used by witnesses: a two-item stream
-- Usage Page (Generic Desktop) followed by Usage (Mouse).

/-- A dictionary knowing only page 1 (Generic Desktop) and usage 2 on it
(Mouse), for witnesses. -/
def hutGD : Hut :=
  { pageName := fun p => if p = 1 then some ("Generic Desktop") else none,
    usageName := fun p u =>
      if p = 1 then (if u = 2 then some ("Mouse") else none) else none }

/-- The empty dictionary, for witnesses. -/
def hutEmpty : Hut :=
  { pageName := fun _ => none, usageName := fun _ _ => none }

/-- Tokenized Usage Page item with value 1 (Generic Desktop). -/
def itUP1 : TokItem :=
  { offset := 0, bytes := [5, 1], data := some ⟨[1]⟩,
    itemType := ItemType.Global (GlobalItem.UsagePage 1) }

/-- Tokenized Usage item with value 2 (Mouse on Generic Desktop). -/
def itU2 : TokItem :=
  { offset := 2, bytes := [9, 2], data := some ⟨[2]⟩,
    itemType := ItemType.Local (LocalItem.Usage 2) }

/-- Tokenized Collection item of sub-kind Application. -/
def itCollApp : TokItem :=
  { offset := 4, bytes := [161, 1], data := some ⟨[1]⟩,
    itemType := ItemType.Main (MainItem.Collection CollectionItem.Application) }

/-- Tokenized Collection item of sub-kind NamedArray, a sub-kind outside
the enumeration handled by `JsonCollection::lookup`. -/
def itCollNamed : TokItem :=
  { offset := 0, bytes := [161, 4], data := some ⟨[4]⟩,
    itemType := ItemType.Main (MainItem.Collection CollectionItem.NamedArray) }

/-- JSON item produced for `itUP1`. -/
def jiUP1 : JsonItem :=
  { offset := 0, data := some [5, 1], item_type := JsonItemType.Global,
    item_name := JsonItemName.UsagePage, value := some 1, collection := none,
    usage_page := some ("Generic Desktop"), usage := none }

/-- JSON item produced for `itU2` after `itUP1`. -/
def jiU2 : JsonItem :=
  { offset := 2, data := some [9, 2], item_type := JsonItemType.Local,
    item_name := JsonItemName.Usage, value := some 2, collection := none,
    usage_page := none, usage := some ("Mouse") }

/-- Sanity evaluation of the fixture stream. -/
lemma decode_fixture_eval :
    decodeItems false hutGD 0 [itUP1, itU2] = Except.ok [jiUP1, jiU2] := by rfl

/-- Descriptor summary of the JSON output (`JsonDescriptor`). -/
structure JsonDescriptor where
  length : Nat
  data : Option (List Nat)
deriving DecidableEq, Repr

/-- The whole JSON output document (`JsonDecode`). -/
structure JsonDecode where
  version : String
  descriptor : JsonDescriptor
  items : List JsonItem
deriving DecidableEq, Repr

/-- Document assembly of `hid_decode` (lines 237-295): descriptor summary
(honouring skip_data) plus the decoded item sequence started at usage
page zero, under the fixed version string. -/
def mkDecode (skipData : Bool) (hut : Hut) (bytes : List Nat) (toks : List TokItem) :
    Except RtPanic JsonDecode :=
  match decodeItems skipData hut 0 toks with
  | Except.error p => Except.error p
  | Except.ok items =>
    Except.ok
      { version := "1.0",
        descriptor :=
          { length := bytes.length,
            data := if skipData then none else some bytes },
        items := items }

/-- The command-line configuration of the run (the fields of `Cli` the
pipeline reads). -/
structure Cli where
  debug : Bool
  pretty : Bool
  skip_data : Bool
  output_file : String
deriving DecidableEq, Repr

/-- Serialization layout selected for the output (serde_json pretty
versus compact writer). -/
inductive Layout
  | pretty
  | compact
deriving DecidableEq, Repr

/-- Modelled from the spec: the effects the external collaborators
supply to one run — the byte source (`std::fs::read`), the tokenizer
(`ReportDescriptorItems::try_from`), whether creating a named destination
file succeeds (`File::create`), and the usage-table dictionary. -/
structure Env where
  hut : Hut
  readResult : Except String (List Nat)
  tokenize : List Nat → Except String (List TokItem)
  createOk : Bool

/-- How a run ends: normal success, an error returned to `main` (which
prints the message and exits non-zero), or a process-aborting panic. -/
inductive Outcome
  | success
  | errorExit (msg : String)
  | panicked
deriving DecidableEq, Repr

/-- Observable result of one run: whether a named destination file was
created (and hence truncated), what was serialized to the destination,
and how the run ended. -/
structure RunResult where
  destFileCreated : Bool
  output : Option (Layout × JsonDecode)
  outcome : Outcome
deriving DecidableEq, Repr

/-- `hid_decode` after the output stream is set up (lines 235-302): read
the source, tokenize, build the document, and serialize it with the
pretty layout exactly when skip_data or pretty is set. -/
def hidDecodeCore (env : Env) (cli : Cli) (created : Bool) : RunResult :=
  match env.readResult with
  | Except.error e =>
    { destFileCreated := created, output := none,
      outcome := Outcome.errorExit ("Error: " ++ e) }
  | Except.ok bytes =>
    match env.tokenize bytes with
    | Except.error e =>
      { destFileCreated := created, output := none,
        outcome := Outcome.errorExit ("Error: " ++ e) }
    | Except.ok toks =>
      match mkDecode cli.skip_data env.hut bytes toks with
      | Except.error _ =>
        { destFileCreated := created, output := none, outcome := Outcome.panicked }
      | Except.ok doc =>
        { destFileCreated := created,
          output := some
            ((if cli.skip_data || cli.pretty then Layout.pretty else Layout.compact), doc),
          outcome := Outcome.success }

/-- `hid_decode` (lines 226-303): the output stream is set up first — for
a named destination the file is created (truncated) now, and a failing
create is an unwrapped panic — and only then is the source read and
decoded. -/
def hidDecode (env : Env) (cli : Cli) : RunResult :=
  if cli.output_file = "-" then hidDecodeCore env cli false
  else if env.createOk then hidDecodeCore env cli true
  else { destFileCreated := false, output := none, outcome := Outcome.panicked }

/-- `main` (lines 305-314): the process exits with status zero exactly on
a successful run. -/
def runExitsZero (r : RunResult) : Bool :=
  match r.outcome with
  | Outcome.success => true
  | _ => false

-- Helper lemmas shared by the claim theorems.

lemma updateState_of_not_up (s : Nat) (item : TokItem)
    (h : ∀ Q, item.itemType ≠ ItemType.Global (GlobalItem.UsagePage Q)) :
    updateState s item = s := by
  unfold updateState
  split
  · rename_i p heq
    exact absurd heq (h p)
  · rfl

lemma updateState_of_up (s : Nat) (item : TokItem) (P : Nat)
    (h : item.itemType = ItemType.Global (GlobalItem.UsagePage P)) :
    updateState s item = P % 65536 := by
  unfold updateState
  rw [h]

/-- The usage lookup of an item does not see the state update of that same
item: no item is both a Global UsagePage item and a Local Usage item. -/
lemma lookup_usage_updateState (hut : Hut) (item : TokItem) (s : Nat) :
    lookup_usage hut item (updateState s item) = lookup_usage hut item s := by
  cases hit : item.itemType with
  | Global gi =>
    cases gi <;> simp [lookup_usage, hit]
  | Main mi => simp [lookup_usage, updateState, hit]
  | Local li => simp [lookup_usage, updateState, hit]
  | Reserved => simp [lookup_usage, updateState, hit]

/-- A successful run of the per-item closure returns the updated state
and a record whose usage annotation is the lookup at the state from
before this item. -/
lemma processItem_ok_spec (sd : Bool) (hut : Hut) (s : Nat) (item : TokItem)
    (s1 : Nat) (ji : JsonItem)
    (h : processItem sd hut s item = Except.ok (s1, ji)) :
    s1 = updateState s item ∧ lookup_usage hut item s = Except.ok ji.usage := by
  unfold processItem at h
  cases hv : itemValue item with
  | error p => simp [hv] at h
  | ok value =>
    simp only [hv] at h
    cases hc : JsonCollection.lookup item with
    | error p => simp [hc] at h
    | ok collection =>
      simp only [hc] at h
      cases hup : lookup_usage_page hut item with
      | error p => simp [hup] at h
      | ok usage_page =>
        simp only [hup] at h
        cases hu : lookup_usage hut item (updateState s item) with
        | error p => simp [hu] at h
        | ok usage =>
          simp only [hu, Except.ok.injEq, Prod.mk.injEq] at h
          obtain ⟨hs1, hji⟩ := h
          refine ⟨hs1.symm, ?_⟩
          rw [← lookup_usage_updateState hut item s, hu, ← hji]

lemma processItem_state (sd : Bool) (hut : Hut) (s : Nat) (item : TokItem)
    (s1 : Nat) (ji : JsonItem)
    (h : processItem sd hut s item = Except.ok (s1, ji)) :
    s1 = updateState s item :=
  (processItem_ok_spec sd hut s item s1 ji h).1

lemma processItem_usage (sd : Bool) (hut : Hut) (s : Nat) (item : TokItem)
    (s1 : Nat) (ji : JsonItem)
    (h : processItem sd hut s item = Except.ok (s1, ji)) :
    lookup_usage hut item s = Except.ok ji.usage :=
  (processItem_ok_spec sd hut s item s1 ji h).2

lemma take_succ_get {α : Type} (l : List α) (j : Nat) (hj : j < l.length) :
    l.take (j + 1) = l.take j ++ [l.get ⟨j, hj⟩] := by
  induction l generalizing j with
  | nil => simp at hj
  | cons a l ih =>
    cases j with
    | zero => simp
    | succ j =>
      simp only [List.take_succ_cons, List.get_cons_succ]
      rw [ih j (by simpa using hj)]
      rfl

lemma stateAfter_append (s : Nat) (l1 l2 : List TokItem) :
    stateAfter s (l1 ++ l2) = stateAfter (stateAfter s l1) l2 := by
  simp [stateAfter, List.foldl_append]

lemma stateAfter_of_no_up (l : List TokItem) (s : Nat)
    (h : ∀ item ∈ l, ∀ Q, item.itemType ≠ ItemType.Global (GlobalItem.UsagePage Q)) :
    stateAfter s l = s := by
  induction l generalizing s with
  | nil => rfl
  | cons a l ih =>
    have ha := updateState_of_not_up s a (h a (by simp))
    simp only [stateAfter, List.foldl_cons] at *
    rw [ha]
    exact ih s (fun item hm => h item (by simp [hm]))

/-- Success of the left-to-right pass pins down every output item: the
i-th output is produced by the per-item closure run at the state obtained
from the first i items, and it moves the state to the one obtained from
the first i+1 items. -/
lemma decodeItems_get (sd : Bool) (hut : Hut) :
    ∀ (items : List TokItem) (s : Nat) (out : List JsonItem),
      decodeItems sd hut s items = Except.ok out →
      out.length = items.length ∧
        ∀ (i : Nat) (hi : i < items.length) (hi' : i < out.length),
          processItem sd hut (stateAfter s (items.take i)) (items.get ⟨i, hi⟩) =
            Except.ok (stateAfter s (items.take (i + 1)), out.get ⟨i, hi'⟩) := by
  intro items
  induction items with
  | nil =>
    intro s out h
    simp only [decodeItems] at h
    cases h
    exact ⟨rfl, fun i hi => by simp at hi⟩
  | cons item rest ih =>
    intro s out h
    simp only [decodeItems] at h
    cases hp : processItem sd hut s item with
    | error p => simp [hp] at h
    | ok pr =>
      obtain ⟨s1, ji⟩ := pr
      simp only [hp] at h
      cases hr : decodeItems sd hut s1 rest with
      | error p => simp [hr] at h
      | ok out1 =>
        simp only [hr, Except.ok.injEq] at h
        subst h
        obtain ⟨hlen, hget⟩ := ih s1 out1 hr
        have hs1 : s1 = updateState s item := processItem_state sd hut s item s1 ji hp
        refine ⟨by simp [hlen], ?_⟩
        intro i hi hi'
        cases i with
        | zero =>
          show processItem sd hut (stateAfter s []) item =
            Except.ok (stateAfter s ((item :: rest).take 1), ji)
          have h1 : stateAfter s ((item :: rest).take 1) = updateState s item := rfl
          rw [h1, ← hs1]
          exact hp
        | succ i =>
          have hi2 : i < rest.length := by simpa using hi
          have hi2' : i < out1.length := by simpa using hi'
          have hmain := hget i hi2 hi2'
          show processItem sd hut (stateAfter s (item :: rest.take i)) (rest.get ⟨i, hi2⟩) =
            Except.ok (stateAfter s (item :: rest.take (i + 1)), out1.get ⟨i, hi2'⟩)
          have hst : ∀ l : List TokItem, stateAfter s (item :: l) = stateAfter s1 l := by
            intro l
            simp [stateAfter, List.foldl_cons, hs1]
          rw [hst, hst]
          exact hmain

/-- After taking j items, where item i (i < j) is a UsagePage item with
value P and no UsagePage item sits strictly between i and j, the resolver
state is P mod 2^16, whatever it started as. -/
lemma stateAfter_up_between (items : List TokItem) (i P : Nat) (hi : i < items.length)
    (hP : (items.get ⟨i, hi⟩).itemType = ItemType.Global (GlobalItem.UsagePage P)) :
    ∀ j, i < j → j ≤ items.length →
      (∀ (k : Nat) (hk : k < items.length), i < k → k < j → ∀ Q,
        (items.get ⟨k, hk⟩).itemType ≠ ItemType.Global (GlobalItem.UsagePage Q)) →
      ∀ s, stateAfter s (items.take j) = P % 65536 := by
  intro j
  induction j with
  | zero => intro hij; exact absurd hij (Nat.not_lt_zero i)
  | succ j ihj =>
    intro hij hjlen hmid s
    rcases Nat.lt_succ_iff_lt_or_eq.mp hij with hij' | hieq
    · have hjlt : j < items.length := Nat.lt_of_succ_le hjlen
      rw [take_succ_get items j hjlt, stateAfter_append]
      have hnot : ∀ Q, (items.get ⟨j, hjlt⟩).itemType ≠
          ItemType.Global (GlobalItem.UsagePage Q) :=
        hmid j hjlt hij' (Nat.lt_succ_self j)
      have hone : stateAfter (stateAfter s (items.take j)) [items.get ⟨j, hjlt⟩] =
          updateState (stateAfter s (items.take j)) (items.get ⟨j, hjlt⟩) := rfl
      rw [hone, updateState_of_not_up _ _ hnot]
      exact ihj hij' (Nat.le_of_succ_le hjlen)
        (fun k hk h1 h2 => hmid k hk h1 (Nat.lt_succ_of_lt h2)) s
    · subst hieq
      rw [take_succ_get items i hi, stateAfter_append]
      have hone : stateAfter (stateAfter s (items.take i)) [items.get ⟨i, hi⟩] =
          updateState (stateAfter s (items.take i)) (items.get ⟨i, hi⟩) := rfl
      rw [hone]
      exact updateState_of_up _ _ P hP

/-- C1: in a successful decode, the usage-label annotation of item i is
resolved against the resolver state exactly as produced by items 0..i-1;
the state update performed by item i itself (which the source applies
before the usage lookup) is never visible to the lookup of that item. -/
theorem usage_label_observes_prior_state (sd : Bool) (hut : Hut) (s : Nat)
    (items : List TokItem) (out : List JsonItem)
    (h : decodeItems sd hut s items = Except.ok out)
    (i : Nat) (hi : i < items.length) (hi' : i < out.length) :
    lookup_usage hut (items.get ⟨i, hi⟩) (stateAfter s (items.take i)) =
      Except.ok ((out.get ⟨i, hi'⟩).usage) := by
  obtain ⟨hlen, hget⟩ := decodeItems_get sd hut items s out h
  exact processItem_usage sd hut _ _ _ _ (hget i hi hi')

/-- Witness for C1 at the concrete stream Usage Page then Usage: the
usage annotation of the second item is resolved against the state left by
the first item alone. -/
theorem usage_label_observes_prior_state_witness :
    lookup_usage hutGD itU2 (stateAfter 0 (List.take 1 [itUP1, itU2])) =
      Except.ok (some ("Mouse")) :=
  usage_label_observes_prior_state false hutGD 0 [itUP1, itU2] [jiUP1, jiU2]
    (by rfl) 1 (by decide) (by decide)

/-- C2: starting from usage page zero, if item i is a UsagePage item with
value P and no UsagePage item sits strictly between i and j, then the
usage annotation of item j is resolved against page P mod 2^16; this
holds for an arbitrary dictionary, so the state update does not depend on
P being a known page. -/
theorem usage_page_state_property (sd : Bool) (hut : Hut)
    (items : List TokItem) (out : List JsonItem)
    (h : decodeItems sd hut 0 items = Except.ok out)
    (i j P : Nat) (hij : i < j) (hj : j < items.length) (hj' : j < out.length)
    (hi : i < items.length)
    (hP : (items.get ⟨i, hi⟩).itemType = ItemType.Global (GlobalItem.UsagePage P))
    (hmid : ∀ (k : Nat) (hk : k < items.length), i < k → k < j → ∀ Q,
      (items.get ⟨k, hk⟩).itemType ≠ ItemType.Global (GlobalItem.UsagePage Q)) :
    lookup_usage hut (items.get ⟨j, hj⟩) (P % 65536) =
      Except.ok ((out.get ⟨j, hj'⟩).usage) := by
  have hstate := stateAfter_up_between items i P hi hP j hij (le_of_lt hj) hmid 0
  obtain ⟨hlen, hget⟩ := decodeItems_get sd hut items 0 out h
  have hu := processItem_usage sd hut _ _ _ _ (hget j hj hj')
  rw [hstate] at hu
  exact hu

/-- Witness for C2 at the concrete stream Usage Page 1 then Usage 2: the
usage annotation of the Usage item is the dictionary entry of (1, 2). -/
theorem usage_page_state_property_witness :
    lookup_usage hutGD itU2 (1 % 65536) = Except.ok (some ("Mouse")) :=
  usage_page_state_property false hutGD [itUP1, itU2] [jiUP1, jiU2] (by rfl)
    0 1 1 (by decide) (by decide) (by decide) (by decide) (by rfl)
    (by intro k hk h1 h2; exact absurd h1 (by omega))

/-- The Collection sub-kind that each JSON collection kind stands for. -/
def JsonCollection.toCollectionItem : JsonCollection → CollectionItem
  | JsonCollection.Physical => CollectionItem.Physical
  | JsonCollection.Logical => CollectionItem.Logical
  | JsonCollection.Application => CollectionItem.Application

/-- C3: collection-kind resolution produces an annotation exactly on Main
Collection items of sub-kind Physical, Logical or Application — the
matching kind, and on no other kind of item — and on a Collection item of
any sub-kind outside that enumeration it surfaces a defect (the modelled
todo panic) instead of fabricating or silently dropping a value. -/
theorem collection_kind_resolution (item : TokItem) :
    (∀ j : JsonCollection, JsonCollection.lookup item = Except.ok (some j) ↔
      item.itemType = ItemType.Main (MainItem.Collection (JsonCollection.toCollectionItem j))) ∧
    (∀ c : CollectionItem, item.itemType = ItemType.Main (MainItem.Collection c) →
      (∀ j : JsonCollection, c ≠ JsonCollection.toCollectionItem j) →
      JsonCollection.lookup item = Except.error RtPanic.todoCollection) := by
  constructor
  · intro j
    constructor
    · intro h
      unfold JsonCollection.lookup at h
      split at h
      · rename_i c heq
        split at h <;> simp_all [JsonCollection.toCollectionItem] <;>
          (subst h; rfl)
      · simp at h
    · intro h
      cases j <;> simp [JsonCollection.lookup, h, JsonCollection.toCollectionItem]
  · intro c hc hj
    cases c with
    | Physical => exact absurd rfl (hj JsonCollection.Physical)
    | Logical => exact absurd rfl (hj JsonCollection.Logical)
    | Application => exact absurd rfl (hj JsonCollection.Application)
    | Report => simp [JsonCollection.lookup, hc]
    | NamedArray => simp [JsonCollection.lookup, hc]
    | UsageSwitch => simp [JsonCollection.lookup, hc]
    | UsageModifier => simp [JsonCollection.lookup, hc]
    | ReservedValue v => simp [JsonCollection.lookup, hc]
    | VendorDefined v => simp [JsonCollection.lookup, hc]

/-- Witness for C3: the concrete Application Collection item resolves to
the Application annotation. -/
theorem collection_kind_resolution_witness :
    JsonCollection.lookup itCollApp = Except.ok (some JsonCollection.Application) :=
  ((collection_kind_resolution itCollApp).1 JsonCollection.Application).mpr (by rfl)

/-- The (structural category, sub-kind) pair of an item, with payloads
dropped. -/
inductive SubKind
  | mInput
  | mOutput
  | mFeature
  | mCollection
  | mEndCollection
  | gUsagePage
  | gLogicalMinimum
  | gLogicalMaximum
  | gPhysicalMinimum
  | gPhysicalMaximum
  | gUnitExponent
  | gUnitOf
  | gReportSize
  | gReportId
  | gReportCount
  | gPush
  | gPop
  | gReserved
  | lUsage
  | lUsageMinimum
  | lUsageMaximum
  | lDesignatorIndex
  | lDesignatorMinimum
  | lDesignatorMaximum
  | lStringIndex
  | lStringMinimum
  | lStringMaximum
  | lDelimiter
  | lReserved
  | otherReserved
deriving DecidableEq, Repr

/-- Projection of an item type to its (category, sub-kind) pair. -/
def subKindOf : ItemType → SubKind
  | ItemType.Main (MainItem.Input _) => SubKind.mInput
  | ItemType.Main (MainItem.Output _) => SubKind.mOutput
  | ItemType.Main (MainItem.Feature _) => SubKind.mFeature
  | ItemType.Main (MainItem.Collection _) => SubKind.mCollection
  | ItemType.Main MainItem.EndCollection => SubKind.mEndCollection
  | ItemType.Global (GlobalItem.UsagePage _) => SubKind.gUsagePage
  | ItemType.Global (GlobalItem.LogicalMinimum _) => SubKind.gLogicalMinimum
  | ItemType.Global (GlobalItem.LogicalMaximum _) => SubKind.gLogicalMaximum
  | ItemType.Global (GlobalItem.PhysicalMinimum _) => SubKind.gPhysicalMinimum
  | ItemType.Global (GlobalItem.PhysicalMaximum _) => SubKind.gPhysicalMaximum
  | ItemType.Global (GlobalItem.UnitExponent _) => SubKind.gUnitExponent
  | ItemType.Global (GlobalItem.UnitOf _) => SubKind.gUnitOf
  | ItemType.Global (GlobalItem.ReportSize _) => SubKind.gReportSize
  | ItemType.Global (GlobalItem.ReportId _) => SubKind.gReportId
  | ItemType.Global (GlobalItem.ReportCount _) => SubKind.gReportCount
  | ItemType.Global GlobalItem.Push => SubKind.gPush
  | ItemType.Global GlobalItem.Pop => SubKind.gPop
  | ItemType.Global GlobalItem.Reserved => SubKind.gReserved
  | ItemType.Local (LocalItem.Usage _) => SubKind.lUsage
  | ItemType.Local (LocalItem.UsageMinimum _) => SubKind.lUsageMinimum
  | ItemType.Local (LocalItem.UsageMaximum _) => SubKind.lUsageMaximum
  | ItemType.Local (LocalItem.DesignatorIndex _) => SubKind.lDesignatorIndex
  | ItemType.Local (LocalItem.DesignatorMinimum _) => SubKind.lDesignatorMinimum
  | ItemType.Local (LocalItem.DesignatorMaximum _) => SubKind.lDesignatorMaximum
  | ItemType.Local (LocalItem.StringIndex _) => SubKind.lStringIndex
  | ItemType.Local (LocalItem.StringMinimum _) => SubKind.lStringMinimum
  | ItemType.Local (LocalItem.StringMaximum _) => SubKind.lStringMaximum
  | ItemType.Local (LocalItem.Delimiter _) => SubKind.lDelimiter
  | ItemType.Local LocalItem.Reserved => SubKind.lReserved
  | ItemType.Reserved => SubKind.otherReserved

/-- Whether a (category, sub-kind) pair is one the descriptor grammar
defines: the reserved sub-kinds of the Global and Local categories and
the reserved-other category are left undefined by the grammar and serve
as fallbacks. -/
def SubKind.definedPair : SubKind → Bool
  | SubKind.gReserved => false
  | SubKind.lReserved => false
  | SubKind.otherReserved => false
  | _ => true

/-- The semantic name assigned to each (category, sub-kind) pair. -/
def nameOfSubKind : SubKind → JsonItemName
  | SubKind.mInput => JsonItemName.Input
  | SubKind.mOutput => JsonItemName.Output
  | SubKind.mFeature => JsonItemName.Feature
  | SubKind.mCollection => JsonItemName.Collection
  | SubKind.mEndCollection => JsonItemName.EndCollection
  | SubKind.gUsagePage => JsonItemName.UsagePage
  | SubKind.gLogicalMinimum => JsonItemName.LogicalMinimum
  | SubKind.gLogicalMaximum => JsonItemName.LogicalMaximum
  | SubKind.gPhysicalMinimum => JsonItemName.PhysicalMinimum
  | SubKind.gPhysicalMaximum => JsonItemName.PhysicalMaximum
  | SubKind.gUnitExponent => JsonItemName.UnitExponent
  | SubKind.gUnitOf => JsonItemName.UnitOf
  | SubKind.gReportSize => JsonItemName.ReportSize
  | SubKind.gReportId => JsonItemName.ReportId
  | SubKind.gReportCount => JsonItemName.ReportCount
  | SubKind.gPush => JsonItemName.Push
  | SubKind.gPop => JsonItemName.Pop
  | SubKind.gReserved => JsonItemName.Reserved
  | SubKind.lUsage => JsonItemName.Usage
  | SubKind.lUsageMinimum => JsonItemName.UsageMinimum
  | SubKind.lUsageMaximum => JsonItemName.UsageMaximum
  | SubKind.lDesignatorIndex => JsonItemName.DesignatorIndex
  | SubKind.lDesignatorMinimum => JsonItemName.DesignatorMinimum
  | SubKind.lDesignatorMaximum => JsonItemName.DesignatorMaximum
  | SubKind.lStringIndex => JsonItemName.StringIndex
  | SubKind.lStringMinimum => JsonItemName.StringMinimum
  | SubKind.lStringMaximum => JsonItemName.StringMaximum
  | SubKind.lDelimiter => JsonItemName.Delimiter
  | SubKind.lReserved => JsonItemName.Reserved
  | SubKind.otherReserved => JsonItemName.Unknown

/-- The classifier factors through the (category, sub-kind) pair. -/
lemma fromItem_eq_nameOfSubKind (item : TokItem) :
    JsonItemName.fromItem item = nameOfSubKind (subKindOf item.itemType) := by
  cases hit : item.itemType with
  | Main mi =>
    cases mi <;> simp [JsonItemName.fromItem, subKindOf, nameOfSubKind, hit]
  | Global gi =>
    cases gi <;> simp [JsonItemName.fromItem, subKindOf, nameOfSubKind, hit]
  | Local li =>
    cases li <;> simp [JsonItemName.fromItem, subKindOf, nameOfSubKind, hit]
  | Reserved => simp [JsonItemName.fromItem, subKindOf, nameOfSubKind, hit]

/-- A left inverse of the name assignment on defined pairs. -/
def subKindInv : JsonItemName → SubKind
  | JsonItemName.Unknown => SubKind.otherReserved
  | JsonItemName.Input => SubKind.mInput
  | JsonItemName.Output => SubKind.mOutput
  | JsonItemName.Feature => SubKind.mFeature
  | JsonItemName.Collection => SubKind.mCollection
  | JsonItemName.EndCollection => SubKind.mEndCollection
  | JsonItemName.UsagePage => SubKind.gUsagePage
  | JsonItemName.LogicalMinimum => SubKind.gLogicalMinimum
  | JsonItemName.LogicalMaximum => SubKind.gLogicalMaximum
  | JsonItemName.PhysicalMinimum => SubKind.gPhysicalMinimum
  | JsonItemName.PhysicalMaximum => SubKind.gPhysicalMaximum
  | JsonItemName.UnitExponent => SubKind.gUnitExponent
  | JsonItemName.UnitOf => SubKind.gUnitOf
  | JsonItemName.ReportSize => SubKind.gReportSize
  | JsonItemName.ReportId => SubKind.gReportId
  | JsonItemName.ReportCount => SubKind.gReportCount
  | JsonItemName.Push => SubKind.gPush
  | JsonItemName.Pop => SubKind.gPop
  | JsonItemName.Reserved => SubKind.gReserved
  | JsonItemName.Usage => SubKind.lUsage
  | JsonItemName.UsageMinimum => SubKind.lUsageMinimum
  | JsonItemName.UsageMaximum => SubKind.lUsageMaximum
  | JsonItemName.DesignatorIndex => SubKind.lDesignatorIndex
  | JsonItemName.DesignatorMinimum => SubKind.lDesignatorMinimum
  | JsonItemName.DesignatorMaximum => SubKind.lDesignatorMaximum
  | JsonItemName.StringIndex => SubKind.lStringIndex
  | JsonItemName.StringMinimum => SubKind.lStringMinimum
  | JsonItemName.StringMaximum => SubKind.lStringMaximum
  | JsonItemName.Delimiter => SubKind.lDelimiter

lemma subKindInv_nameOfSubKind (s : SubKind) (hs : s.definedPair = true) :
    subKindInv (nameOfSubKind s) = s := by
  cases s <;> first | rfl | simp [SubKind.definedPair] at hs

/-- C5: the semantic-name classification is injective on the pairs the
descriptor grammar defines: two items of distinct defined
(category, sub-kind) pairs always receive distinct semantic names. -/
theorem item_name_injective_on_defined_subkinds (it1 it2 : TokItem)
    (h1 : (subKindOf it1.itemType).definedPair = true)
    (h2 : (subKindOf it2.itemType).definedPair = true)
    (hne : subKindOf it1.itemType ≠ subKindOf it2.itemType) :
    JsonItemName.fromItem it1 ≠ JsonItemName.fromItem it2 := by
  intro heq
  rw [fromItem_eq_nameOfSubKind, fromItem_eq_nameOfSubKind] at heq
  have hinv := congrArg subKindInv heq
  rw [subKindInv_nameOfSubKind _ h1, subKindInv_nameOfSubKind _ h2] at hinv
  exact hne hinv

/-- Witness for C5: the Usage Page item and the Usage item have distinct
defined sub-kinds and receive distinct names. -/
theorem item_name_injective_on_defined_subkinds_witness :
    JsonItemName.fromItem itUP1 ≠ JsonItemName.fromItem itU2 :=
  item_name_injective_on_defined_subkinds itUP1 itU2 (by rfl) (by rfl) (by decide)

/-- C4 (observed defect): a valid tokenized stream consisting of one
Collection item of sub-kind NamedArray makes the decode abort through the
todo panic of the collection lookup, so no classified item is produced
for the tokenized item. -/
theorem decode_aborts_on_unknown_collection :
    decodeItems false hutEmpty 0 [itCollNamed] = Except.error RtPanic.todoCollection := by
  rfl

/-- Counterexample for C10: this Collection item carries a one-byte data
payload, yet its processing panics (on the todo of the collection
lookup), so fitting in 32 bits does not ensure panic-free processing. -/
theorem process_item_panics_on_named_array_collection :
    itCollNamed.data = some (ItemData.mk [4]) ∧
    (ItemData.mk [4]).bytes.length ≤ 4 ∧
    processItem false hutEmpty 0 itCollNamed = Except.error RtPanic.todoCollection :=
  ⟨rfl, by decide, rfl⟩

/-- C10 (amended): on an item whose data payload has at most four bytes
and which is not a Collection item of unrecognized sub-kind, all the
unwrapped u32 conversions succeed and processing returns normally; the
value field is present exactly when the item carries data and then equals
the unsigned payload reinterpreted as a signed 32-bit integer. -/
theorem process_item_no_panic_on_small_data (sd : Bool) (hut : Hut) (s : Nat)
    (item : TokItem)
    (hdata : ∀ d, item.data = some d → d.bytes.length ≤ 4)
    (hcoll : ∀ c, item.itemType = ItemType.Main (MainItem.Collection c) →
      c = CollectionItem.Physical ∨ c = CollectionItem.Logical ∨
        c = CollectionItem.Application) :
    ∃ s1 ji, processItem sd hut s item = Except.ok (s1, ji) ∧
      ji.value = item.data.map (fun d => asI32 (leBytes d.bytes)) := by
  have hv : itemValue item = Except.ok (item.data.map (fun d => asI32 (leBytes d.bytes))) := by
    cases hd : item.data with
    | none => simp [itemValue, hd]
    | some d =>
      have h4 : u32TryFrom d = some (leBytes d.bytes) := by
        simp [u32TryFrom, hdata d hd]
      simp [itemValue, hd, h4]
  have hcol : ∃ col, JsonCollection.lookup item = Except.ok col := by
    cases hit : item.itemType
    case Main mi =>
      cases mi
      case Collection c =>
        rcases hcoll c hit with h | h | h
        · subst h
          exact ⟨some JsonCollection.Physical, by simp [JsonCollection.lookup, hit]⟩
        · subst h
          exact ⟨some JsonCollection.Logical, by simp [JsonCollection.lookup, hit]⟩
        · subst h
          exact ⟨some JsonCollection.Application, by simp [JsonCollection.lookup, hit]⟩
      all_goals exact ⟨none, by simp [JsonCollection.lookup, hit]⟩
    all_goals exact ⟨none, by simp [JsonCollection.lookup, hit]⟩
  have hup2 : ∃ up, lookup_usage_page hut item = Except.ok up := by
    cases hit : item.itemType
    case Global gi =>
      cases gi
      case UsagePage p =>
        cases hd : item.data
        case none => exact ⟨none, by simp [lookup_usage_page, hit, hd]⟩
        case some d =>
          have h4 : u32TryFrom d = some (leBytes d.bytes) := by
            simp [u32TryFrom, hdata d hd]
          exact ⟨hut.pageName (leBytes d.bytes % 65536),
            by simp [lookup_usage_page, hit, hd, h4]⟩
      all_goals exact ⟨none, by simp [lookup_usage_page, hit]⟩
    all_goals exact ⟨none, by simp [lookup_usage_page, hit]⟩
  have hu2 : ∃ u, lookup_usage hut item (updateState s item) = Except.ok u := by
    cases hit : item.itemType
    case Local li =>
      cases li
      case Usage v =>
        cases hd : item.data
        case none => exact ⟨none, by simp [lookup_usage, hit, hd]⟩
        case some d =>
          have h4 : u32TryFrom d = some (leBytes d.bytes) := by
            simp [u32TryFrom, hdata d hd]
          exact ⟨hut.usageName (updateState s item) (leBytes d.bytes % 65536),
            by simp [lookup_usage, hit, hd, h4]⟩
      all_goals exact ⟨none, by simp [lookup_usage, hit]⟩
    all_goals exact ⟨none, by simp [lookup_usage, hit]⟩
  obtain ⟨col, hcol⟩ := hcol
  obtain ⟨up, hup2⟩ := hup2
  obtain ⟨u, hu2⟩ := hu2
  exact ⟨updateState s item,
    { offset := item.offset, data := if sd then none else some item.bytes,
      item_type := jsonTypeOf item.itemType, item_name := JsonItemName.fromItem item,
      value := item.data.map (fun d => asI32 (leBytes d.bytes)),
      collection := col, usage_page := up, usage := u },
    by simp only [processItem, hv, hcol, hup2, hu2], rfl⟩

/-- Witness for the amended C10 at the concrete Usage item: processing
returns normally and the value equals the signed reinterpretation of the
payload. -/
theorem process_item_no_panic_on_small_data_witness :
    ∃ s1 ji, processItem false hutEmpty 0 itU2 = Except.ok (s1, ji) ∧
      ji.value = itU2.data.map (fun d => asI32 (leBytes d.bytes)) :=
  process_item_no_panic_on_small_data false hutEmpty 0 itU2
    (by intro d hd; simp only [itU2, Option.some.injEq] at hd; subst hd; decide)
    (by intro c hc; simp [itU2] at hc)

/-- C8: on a UsagePage item carrying a data payload of at most four bytes
whose value agrees with the page payload modulo 2^16, processing returns
normally (never an error), the resolver state is overwritten with the raw
value truncated to 16 bits whatever the dictionary says, and the
usage-page annotation is exactly the dictionary lookup of that truncated
value — absent when the dictionary has no entry. -/
theorem usage_page_update_and_label (sd : Bool) (hut : Hut) (s : Nat) (item : TokItem)
    (P : Nat) (d : ItemData)
    (hP : item.itemType = ItemType.Global (GlobalItem.UsagePage P))
    (hd : item.data = some d)
    (h4 : d.bytes.length ≤ 4)
    (hcoh : leBytes d.bytes % 65536 = P % 65536) :
    ∃ ji, processItem sd hut s item = Except.ok (P % 65536, ji) ∧
      ji.usage_page = hut.pageName (P % 65536) := by
  have hu32 : u32TryFrom d = some (leBytes d.bytes) := by simp [u32TryFrom, h4]
  have hv : itemValue item = Except.ok (some (asI32 (leBytes d.bytes))) := by
    simp [itemValue, hd, hu32]
  have hcol : JsonCollection.lookup item = Except.ok none := by
    simp [JsonCollection.lookup, hP]
  have hup2 : lookup_usage_page hut item =
      Except.ok (hut.pageName (leBytes d.bytes % 65536)) := by
    simp [lookup_usage_page, hP, hd, hu32]
  have hu2 : ∀ page, lookup_usage hut item page = Except.ok none := by
    intro page
    simp [lookup_usage, hP]
  have hst : updateState s item = P % 65536 := updateState_of_up s item P hP
  exact ⟨{ offset := item.offset, data := if sd then none else some item.bytes,
           item_type := jsonTypeOf item.itemType, item_name := JsonItemName.fromItem item,
           value := some (asI32 (leBytes d.bytes)), collection := none,
           usage_page := hut.pageName (leBytes d.bytes % 65536), usage := none },
    by simp only [processItem, hv, hcol, hup2, hu2, hst],
    by rw [hcoh]⟩

/-- Tokenized Usage Page item whose raw value 196609 exceeds 16 bits and
wraps to page 1. -/
def itUPBig : TokItem :=
  { offset := 0, bytes := [7, 1, 0, 3], data := some ⟨[1, 0, 3]⟩,
    itemType := ItemType.Global (GlobalItem.UsagePage 196609) }

/-- Witness for C8 at the wrapping Usage Page item under the empty
dictionary: the state becomes 1 and no annotation is produced, without an
error. -/
theorem usage_page_update_and_label_witness :
    ∃ ji, processItem false hutEmpty 5 itUPBig = Except.ok (196609 % 65536, ji) ∧
      ji.usage_page = hutEmpty.pageName (196609 % 65536) :=
  usage_page_update_and_label false hutEmpty 5 itUPBig 196609 (ItemData.mk [1, 0, 3])
    (by rfl) (by rfl) (by decide) (by decide)

/-- Erase the raw-data field of one JSON item, leaving every other field
unchanged. -/
def stripItemData (ji : JsonItem) : JsonItem :=
  { ji with data := none }

/-- Erase the raw-data fields of a whole document, leaving every other
field unchanged. -/
def stripDoc (doc : JsonDecode) : JsonDecode :=
  { version := doc.version,
    descriptor := { length := doc.descriptor.length, data := none },
    items := doc.items.map stripItemData }

lemma processItem_skip (hut : Hut) (s : Nat) (item : TokItem) :
    processItem true hut s item =
      (processItem false hut s item).map (fun pr => (pr.1, stripItemData pr.2)) := by
  unfold processItem
  dsimp only
  cases itemValue item with
  | error p => rfl
  | ok value =>
    cases JsonCollection.lookup item with
    | error p => rfl
    | ok collection =>
      cases lookup_usage_page hut item with
      | error p => rfl
      | ok up =>
        cases lookup_usage hut item (updateState s item) with
        | error p => rfl
        | ok u => rfl

lemma decodeItems_skip (hut : Hut) :
    ∀ (items : List TokItem) (s : Nat),
      decodeItems true hut s items =
        (decodeItems false hut s items).map (List.map stripItemData) := by
  intro items
  induction items with
  | nil => intro s; rfl
  | cons item rest ih =>
    intro s
    simp only [decodeItems, processItem_skip]
    cases processItem false hut s item with
    | error p => rfl
    | ok pr =>
      obtain ⟨s1, ji⟩ := pr
      simp only [Except.map]
      rw [ih s1]
      cases decodeItems false hut s1 rest with
      | error p => rfl
      | ok out => rfl

lemma mkDecode_skip (hut : Hut) (bytes : List Nat) (toks : List TokItem) :
    mkDecode true hut bytes toks = (mkDecode false hut bytes toks).map stripDoc := by
  unfold mkDecode
  rw [decodeItems_skip]
  cases decodeItems false hut 0 toks with
  | error p => rfl
  | ok items => rfl

lemma hidDecodeCore_skip (env : Env) (cli : Cli) (created : Bool) (lay : Layout)
    (d0 : JsonDecode) (hsd : cli.skip_data = false)
    (h : (hidDecodeCore env cli created).output = some (lay, d0)) :
    (hidDecodeCore env { cli with skip_data := true } created).output =
      some (Layout.pretty, stripDoc d0) := by
  have hsk : ({ cli with skip_data := true } : Cli).skip_data = true := rfl
  unfold hidDecodeCore at h ⊢
  cases hr : env.readResult with
  | error e => simp [hr] at h
  | ok bytes =>
    simp only [hr] at h ⊢
    cases ht : env.tokenize bytes with
    | error e => simp [ht] at h
    | ok toks =>
      simp only [ht] at h ⊢
      rw [hsd] at h
      cases hm : mkDecode false env.hut bytes toks with
      | error p => simp [hm] at h
      | ok doc =>
        have hm2 : mkDecode true env.hut bytes toks = Except.ok (stripDoc doc) := by
          rw [mkDecode_skip, hm]
          rfl
        simp only [hm, Option.some.injEq, Prod.mk.injEq] at h
        obtain ⟨hlay, hdoc⟩ := h
        subst hdoc
        simp [hm2]

/-- C6: from any run whose decode succeeds with the omit-raw-data toggle
off, turning the toggle on (all else equal) yields a document with the
descriptor data and every item data absent, and all other fields — the
version, the descriptor length, and every other field of every item —
identical; the serialized layout is then the indented one. -/
theorem skip_data_omission (env : Env) (cli : Cli) (lay : Layout) (d0 : JsonDecode)
    (hsd : cli.skip_data = false)
    (h : (hidDecode env cli).output = some (lay, d0)) :
    ∃ d1, (hidDecode env { cli with skip_data := true }).output =
        some (Layout.pretty, d1) ∧
      d1.version = d0.version ∧
      d1.descriptor.length = d0.descriptor.length ∧
      d1.descriptor.data = none ∧
      d1.items = d0.items.map stripItemData ∧
      ∀ ji ∈ d1.items, ji.data = none := by
  have hof : ({ cli with skip_data := true } : Cli).output_file = cli.output_file := rfl
  refine ⟨stripDoc d0, ?_, rfl, rfl, rfl, rfl, ?_⟩
  · unfold hidDecode at h ⊢
    rw [hof]
    by_cases hout : cli.output_file = "-"
    · rw [if_pos hout] at h ⊢
      exact hidDecodeCore_skip env cli false lay d0 hsd h
    · rw [if_neg hout] at h ⊢
      by_cases hcr : env.createOk
      · rw [if_pos hcr] at h ⊢
        exact hidDecodeCore_skip env cli true lay d0 hsd h
      · rw [if_neg hcr] at h
        simp at h
  · intro ji hji
    simp only [stripDoc, List.mem_map] at hji
    obtain ⟨ji0, _, hji0⟩ := hji
    rw [← hji0]
    rfl

/-- Run fixture for witnesses: the two-item stream decoded under the
Generic Desktop dictionary, written to standard output. -/
def envGD : Env :=
  { hut := hutGD, readResult := Except.ok [5, 1, 9, 2],
    tokenize := fun _ => Except.ok [itUP1, itU2], createOk := true }

/-- Cli fixture: all toggles off, destination standard output. -/
def cliPlain : Cli :=
  { debug := false, pretty := false, skip_data := false, output_file := "-" }

/-- The document produced by the fixture run with raw data kept. -/
def docGD : JsonDecode :=
  { version := "1.0", descriptor := { length := 4, data := some [5, 1, 9, 2] },
    items := [jiUP1, jiU2] }

/-- Witness for C6 at the fixture run: enabling the toggle yields the
stripped document with the indented layout. -/
theorem skip_data_omission_witness :
    ∃ d1, (hidDecode envGD { cliPlain with skip_data := true }).output =
        some (Layout.pretty, d1) ∧
      d1.version = docGD.version ∧
      d1.descriptor.length = docGD.descriptor.length ∧
      d1.descriptor.data = none ∧
      d1.items = docGD.items.map stripItemData ∧
      ∀ ji ∈ d1.items, ji.data = none :=
  skip_data_omission envGD cliPlain Layout.compact docGD rfl (by rfl)

lemma hidDecodeCore_created (env : Env) (cli : Cli) (created : Bool) :
    (hidDecodeCore env cli created).destFileCreated = created := by
  unfold hidDecodeCore
  cases hr : env.readResult with
  | error e => rfl
  | ok bytes =>
    dsimp only
    cases ht : env.tokenize bytes with
    | error e => rfl
    | ok toks =>
      dsimp only
      cases hm : mkDecode cli.skip_data env.hut bytes toks with
      | error p => rfl
      | ok doc => rfl

lemma hidDecodeCore_fatal (env : Env) (cli : Cli) (created : Bool)
    (h : (∃ e, env.readResult = Except.error e) ∨
      (∃ bytes e, env.readResult = Except.ok bytes ∧ env.tokenize bytes = Except.error e)) :
    (hidDecodeCore env cli created).output = none ∧
    runExitsZero (hidDecodeCore env cli created) = false ∧
    ∃ e, (hidDecodeCore env cli created).outcome = Outcome.errorExit ("Error: " ++ e) := by
  rcases h with ⟨e, he⟩ | ⟨bytes, e, hb, he⟩
  · refine ⟨?_, ?_, e, ?_⟩ <;> simp [hidDecodeCore, he, runExitsZero]
  · refine ⟨?_, ?_, e, ?_⟩ <;> simp [hidDecodeCore, hb, he, runExitsZero]

/-- The fatal conditions of the error taxonomy: source unreadable,
malformed descriptor (tokenizer rejection), or destination unwritable. -/
def FatalCondition (env : Env) (cli : Cli) : Prop :=
  (∃ e, env.readResult = Except.error e) ∨
  (∃ bytes e, env.readResult = Except.ok bytes ∧ env.tokenize bytes = Except.error e) ∨
  (cli.output_file ≠ "-" ∧ env.createOk = false)

/-- C7 (amended): every fatal condition ends the run without success
(non-zero completion status), with a failure message or a panic, and with
no serialized output written to the destination; when the destination is
standard output nothing is created, but a named destination file is
created (truncated) during startup whenever the create succeeds, even
though a fatal condition follows. -/
theorem fatal_no_output (env : Env) (cli : Cli) (h : FatalCondition env cli) :
    (hidDecode env cli).output = none ∧
    runExitsZero (hidDecode env cli) = false ∧
    ((hidDecode env cli).outcome = Outcome.panicked ∨
      ∃ e, (hidDecode env cli).outcome = Outcome.errorExit ("Error: " ++ e)) ∧
    (cli.output_file = "-" → (hidDecode env cli).destFileCreated = false) := by
  by_cases hof : cli.output_file = "-"
  · rcases h with hio | hio | ⟨hne, _⟩
    · have hc := hidDecodeCore_fatal env cli false (Or.inl hio)
      unfold hidDecode
      rw [if_pos hof]
      exact ⟨hc.1, hc.2.1, Or.inr hc.2.2,
        fun _ => hidDecodeCore_created env cli false⟩
    · have hc := hidDecodeCore_fatal env cli false (Or.inr hio)
      unfold hidDecode
      rw [if_pos hof]
      exact ⟨hc.1, hc.2.1, Or.inr hc.2.2,
        fun _ => hidDecodeCore_created env cli false⟩
    · exact absurd hof hne
  · by_cases hcr : env.createOk
    · rcases h with hio | hio | ⟨_, hco⟩
      · have hc := hidDecodeCore_fatal env cli true (Or.inl hio)
        unfold hidDecode
        rw [if_neg hof, if_pos hcr]
        exact ⟨hc.1, hc.2.1, Or.inr hc.2.2, fun hof2 => absurd hof2 hof⟩
      · have hc := hidDecodeCore_fatal env cli true (Or.inr hio)
        unfold hidDecode
        rw [if_neg hof, if_pos hcr]
        exact ⟨hc.1, hc.2.1, Or.inr hc.2.2, fun hof2 => absurd hof2 hof⟩
      · simp [hco] at hcr
    · unfold hidDecode
      rw [if_neg hof, if_neg hcr]
      exact ⟨rfl, rfl, Or.inl rfl, fun hof2 => absurd hof2 hof⟩

/-- Run fixture: the input file is unreadable. -/
def envBadRead : Env :=
  { hut := hutEmpty, readResult := Except.error ("No such file"),
    tokenize := fun _ => Except.ok [], createOk := true }

/-- Cli fixture: destination is the named file out.json. -/
def cliFile : Cli :=
  { debug := false, pretty := false, skip_data := false, output_file := "out.json" }

/-- Counterexample for C7: with the input unreadable and a named
destination, the run fails with a message and writes no serialized
output, yet the destination file has already been created (truncated), so
the destination is not left untouched. -/
theorem fatal_read_creates_destination_file :
    (hidDecode envBadRead cliFile).destFileCreated = true ∧
    (hidDecode envBadRead cliFile).output = none ∧
    (hidDecode envBadRead cliFile).outcome = Outcome.errorExit ("Error: No such file") :=
  ⟨rfl, rfl, rfl⟩

/-- Witness for the amended C7 at the unreadable-input fixture. -/
theorem fatal_no_output_witness :
    (hidDecode envBadRead cliFile).output = none ∧
    runExitsZero (hidDecode envBadRead cliFile) = false ∧
    ((hidDecode envBadRead cliFile).outcome = Outcome.panicked ∨
      ∃ e, (hidDecode envBadRead cliFile).outcome = Outcome.errorExit ("Error: " ++ e)) ∧
    (cliFile.output_file = "-" → (hidDecode envBadRead cliFile).destFileCreated = false) :=
  fatal_no_output envBadRead cliFile (Or.inl ⟨"No such file", rfl⟩)

lemma hidDecodeCore_output_layout (env : Env) (cli : Cli) (created : Bool)
    (lay : Layout) (doc : JsonDecode)
    (h : (hidDecodeCore env cli created).output = some (lay, doc)) :
    lay = if cli.skip_data || cli.pretty then Layout.pretty else Layout.compact := by
  unfold hidDecodeCore at h
  cases hr : env.readResult with
  | error e => simp [hr] at h
  | ok bytes =>
    simp only [hr] at h
    cases ht : env.tokenize bytes with
    | error e => simp [ht] at h
    | ok toks =>
      simp only [ht] at h
      cases hm : mkDecode cli.skip_data env.hut bytes toks with
      | error p => simp [hm] at h
      | ok doc2 =>
        simp only [hm, Option.some.injEq, Prod.mk.injEq] at h
        exact h.1.symm

/-- C9: whenever a run serializes a document, the layout is the indented
one if the omit-raw-data toggle is set, regardless of the verbosity
toggle; and with the omit toggle off, the layout is indented exactly when
the verbosity toggle is set. -/
theorem layout_selection (env : Env) (cli : Cli) (lay : Layout) (doc : JsonDecode)
    (h : (hidDecode env cli).output = some (lay, doc)) :
    (cli.skip_data = true → lay = Layout.pretty) ∧
    (cli.skip_data = false → (lay = Layout.pretty ↔ cli.pretty = true)) := by
  have hlay : lay = if cli.skip_data || cli.pretty then Layout.pretty else Layout.compact := by
    unfold hidDecode at h
    by_cases hof : cli.output_file = "-"
    · rw [if_pos hof] at h
      exact hidDecodeCore_output_layout env cli false lay doc h
    · rw [if_neg hof] at h
      by_cases hcr : env.createOk
      · rw [if_pos hcr] at h
        exact hidDecodeCore_output_layout env cli true lay doc h
      · rw [if_neg hcr] at h
        simp at h
  constructor
  · intro hsd
    rw [hlay, hsd]
    simp
  · intro hsd
    rw [hlay, hsd]
    cases hp : cli.pretty <;> simp

/-- Cli fixture: omit-raw-data set, verbosity off. -/
def cliSkip : Cli :=
  { debug := false, pretty := false, skip_data := true, output_file := "-" }

/-- Witness for C9 at the fixture run with omit-raw-data set and
verbosity off: the layout obligations hold at the produced document. -/
theorem layout_selection_witness :
    (cliSkip.skip_data = true → Layout.pretty = Layout.pretty) ∧
    (cliSkip.skip_data = false → (Layout.pretty = Layout.pretty ↔ cliSkip.pretty = true)) :=
  layout_selection envGD cliSkip Layout.pretty (stripDoc docGD) (by rfl)
